import Mathlib

/-!
Verification of the multi-parameter causal-oracle calibration program:
`src/simulator.py` (class `Simulator`), `src/optimizer.py`
(`BayesianOptimizer._calculate_rmse`) and `main.py` (`calculate_rmse`,
`objective_function`, `run_staged_calibration`).

Modelling conventions.  Python floats are modelled as exact rationals `ℚ`.
The comparator functions return `sqrt(mean(squared differences))`; the
square root is irrational in general, so each comparator is embedded as the
radicand (a rational, suffix `_sq`) and statements about the value the
Python function returns wrap the radicand in `Real.sqrt`.  The external
pymunk physics advance `space.step(1/60)` is an opaque deterministic
transition: it is a universally quantified function
`stepFn : SimConfig → SimState → SimState`, inside which gravity
`(0, -1000)`, the static floor segment and the fixed timestep live.  The
external optimizer `gp_minimize` is likewise a universally quantified
function from the data of one call to the returned best point `result.x`.
Python dicts are insertion-ordered association lists with unique keys.
-/

/-- squared distance between two 2-D points: both coordinates' squared
differences, summed.  One point pair's contribution to the NumPy
expression `np.mean((t1 - t2)**2)`. -/
def sqDist (p q : ℚ × ℚ) : ℚ := (p.1 - q.1) ^ 2 + (p.2 - q.2) ^ 2

/-- elementwise sum of squared differences of two point lists, walking the
two lists in parallel: the numerator of `np.mean((t1 - t2)**2)` (which has
`2 * n` terms for two length-`n` trajectories). -/
def sqDiffSum : List (ℚ × ℚ) → List (ℚ × ℚ) → ℚ
  | p :: ps, q :: qs => sqDist p q + sqDiffSum ps qs
  | _, _ => 0

/-- last point `t[-1]` of a trajectory.  Total with junk value `(0, 0)` on
the empty list, where the Python expression raises IndexError; every
theorem below restricts to non-empty lists, the spec's Trajectory domain
(length equal to the positive step count). -/
def lastPt (t : List (ℚ × ℚ)) : ℚ × ℚ := t.getD (t.length - 1) (0, 0)

/-- trailing-hold padding
`np.vstack([t, np.tile(t[-1], (n - len(t), 1))])`: extend `t` to length
`n` by repeating its last point.  No change when `n ≤ len(t)`, matching
the `if len1 > len2 / elif len2 > len1` guards of `_calculate_rmse`. -/
def padTo (n : Nat) (t : List (ℚ × ℚ)) : List (ℚ × ℚ) :=
  t ++ List.replicate (n - t.length) (lastPt t)

/-- square of `main.py`'s `calculate_rmse(t1, t2)`: mean of the squared
coordinate differences over all `2 * len(t1)` coordinates, no padding.
NumPy requires equal shapes here (unequal lengths raise a broadcast
error); the development uses this function only on equal-length lists. -/
def calculate_rmse_sq (t1 t2 : List (ℚ × ℚ)) : ℚ :=
  sqDiffSum t1 t2 / (2 * (t1.length : ℚ))

/-- square of `BayesianOptimizer._calculate_rmse(t1, t2)` from
`src/optimizer.py`: pad the shorter list to the longer one's length by
repeating its last point, then take the mean of the squared coordinate
differences over all coordinates of the padded pair. -/
def calculate_rmse_padded_sq (t1 t2 : List (ℚ × ℚ)) : ℚ :=
  let n := max t1.length t2.length
  sqDiffSum (padTo n t1) (padTo n t2) / (2 * (n : ℚ))

/-- physical configuration of the single dynamic body, as read from the
params dict in `Simulator.__init__`. -/
structure SimConfig where
  mass : ℚ
  elasticity : ℚ
  friction : ℚ
deriving DecidableEq

/-- dynamic state of the body: position and velocity.  The angular state
never changes in this program (every impulse is applied at the body's
center of gravity, producing no torque), so it is omitted. -/
structure SimState where
  pos : ℚ × ℚ
  vel : ℚ × ℚ
deriving DecidableEq

/-- a simulator instance: the body's physical configuration plus the
body's dynamic state. -/
structure Simulator where
  cfg : SimConfig
  body : SimState
deriving DecidableEq

/-- `Simulator.__init__(params)` from `src/simulator.py`: read mass,
elasticity and friction from the params dict with defaults `10.0`,
`0.95`, `0.7`, and place the body at `(0, 300)` with zero velocity.  No
validation of any value is performed.  The pymunk space, its gravity
`(0, -1000)`, the static floor segment and the circle radius are internal
to the opaque step function and carry no further program-visible state. -/
def Simulator.init (params : List (String × ℚ)) : Simulator :=
  { cfg :=
      { mass := (params.lookup "mass").getD 10
        elasticity := (params.lookup "elasticity").getD (19 / 20)
        friction := (params.lookup "friction").getD (7 / 10) }
    body := { pos := (0, 300), vel := (0, 0) } }

/-- `body.apply_impulse_at_local_point(j)` at the default point `(0, 0)`,
the center of gravity: an instantaneous velocity change by `j / mass`,
position unchanged, no torque. -/
def applyImpulse (m : ℚ) (j : ℚ × ℚ) (st : SimState) : SimState :=
  { st with vel := (st.vel.1 + j.1 / m, st.vel.2 + j.2 / m) }

/-- inner loop of `run_simulation_for_trajectory`: walk the whole impulse
schedule and apply every impulse whose step index equals the current
step. -/
def applyScheduled (m : ℚ) (impulses : List (Nat × ℚ × ℚ)) (step : Nat)
    (st : SimState) : SimState :=
  impulses.foldl (fun s ti => if step = ti.1 then applyImpulse m ti.2 s else s) st

/-- one iteration of the `for step in range(steps)` body: scheduled
impulses first, then the opaque `space.step(1/60)` advance. -/
def stepOnce (stepFn : SimConfig → SimState → SimState) (cfg : SimConfig)
    (impulses : List (Nat × ℚ × ℚ)) (step : Nat) (st : SimState) : SimState :=
  stepFn cfg (applyScheduled cfg.mass impulses step st)

/-- remaining trajectory: run `n` more loop iterations starting at step
index `k`, recording `body.position` after each advance. -/
def runFrom (stepFn : SimConfig → SimState → SimState) (cfg : SimConfig)
    (impulses : List (Nat × ℚ × ℚ)) : Nat → Nat → SimState → List (ℚ × ℚ)
  | 0, _, _ => []
  | n + 1, k, st =>
    (stepOnce stepFn cfg impulses k st).pos ::
      runFrom stepFn cfg impulses n (k + 1) (stepOnce stepFn cfg impulses k st)

/-- body state after `n` more loop iterations starting at step index `k`
(used to state where each recorded position comes from). -/
def stateFrom (stepFn : SimConfig → SimState → SimState) (cfg : SimConfig)
    (impulses : List (Nat × ℚ × ℚ)) : Nat → Nat → SimState → SimState
  | 0, _, st => st
  | n + 1, k, st => stateFrom stepFn cfg impulses n (k + 1) (stepOnce stepFn cfg impulses k st)

/-- `Simulator.run_simulation_for_trajectory(steps, impulses)` with the
physics advance abstracted as `stepFn`. -/
def Simulator.run_simulation_for_trajectory (stepFn : SimConfig → SimState → SimState)
    (sim : Simulator) (steps : Nat) (impulses : List (Nat × ℚ × ℚ)) : List (ℚ × ℚ) :=
  runFrom stepFn sim.cfg impulses steps 0 sim.body

/-- impulse vectors scheduled for exactly step `k`, in schedule order. -/
def impulsesAt (impulses : List (Nat × ℚ × ℚ)) (k : Nat) : List (ℚ × ℚ) :=
  (impulses.filter (fun ti => k = ti.1)).map (fun ti => ti.2)

/-- apply a list of impulse vectors in order, each exactly once. -/
def applyAll (m : ℚ) (js : List (ℚ × ℚ)) (st : SimState) : SimState :=
  js.foldl (fun s j => applyImpulse m j s) st

/-- Python dict assignment `d[name] = v` on an insertion-ordered
association list: overwrite in place when the key already exists, append
at the end otherwise. -/
def dictSet : List (String × ℚ) → String → ℚ → List (String × ℚ)
  | [], k, v => [(k, v)]
  | kv :: rest, k, v =>
    if kv.1 = k then (k, v) :: rest else kv :: dictSet rest k v

/-- the merge loop of `objective_function`,
`for i, name in enumerate(search_space_names): current_params[name] = params[i]`:
`none` models the IndexError raised by `params[i]` when the value list
runs out before the name list does. -/
def assignFree : List (String × ℚ) → List String → List ℚ → Nat → Option (List (String × ℚ))
  | acc, [], _, _ => some acc
  | acc, name :: names, vals, i =>
    match vals.get? i with
    | some v => assignFree (dictSet acc name v) names vals (i + 1)
    | none => none

/-- observable outcome of one `objective_function` call: the returned
score (carried as its square, `none` for the IndexError path), the
updated global call counter, and the content of the printed log line
(stage label, call number, merged parameter dict, score square). -/
structure ObjResult where
  value_sq : Option ℚ
  call_count : Nat
  log : Option (String × Nat × List (String × ℚ) × ℚ)
deriving DecidableEq

/-- `main.py`'s `objective_function`: bump the global call counter, merge
the searched values into a copy of the fixed params positionally by name,
run a fresh simulation with the merged params, and score it against the
ground truth with `calculate_rmse` (the equal-length, no-padding
variant defined in `main.py`). -/
def objective_function (stepFn : SimConfig → SimState → SimState) (stage : String)
    (call_count : Nat) (params : List ℚ) (search_space_names : List String)
    (fixed_params : List (String × ℚ)) (ground_truth_traj : List (ℚ × ℚ))
    (steps : Nat) (impulses : List (Nat × ℚ × ℚ)) : ObjResult :=
  let c := call_count + 1
  match assignFree fixed_params search_space_names params 0 with
  | none => { value_sq := none, call_count := c, log := none }
  | some current_params =>
    let sim := Simulator.init current_params
    let sim_trajectory := Simulator.run_simulation_for_trajectory stepFn sim steps impulses
    let r := calculate_rmse_sq ground_truth_traj sim_trajectory
    { value_sq := some r, call_count := c, log := some (stage, c, current_params, r) }

/-- full parameter estimate; the fields are listed in the insertion order
of the `initial_guess` dict literal (friction, elasticity, mass), which
is the order every `best_params` dict in `main.py` keeps. -/
structure Params where
  friction : ℚ
  elasticity : ℚ
  mass : ℚ
deriving DecidableEq

/-- `list(best_params.values())` under the dict's insertion order. -/
def Params.valuesList (p : Params) : List ℚ := [p.friction, p.elasticity, p.mass]

/-- the reference true parameters `GROUND_TRUTH_PARAMS` of `main.py`. -/
def GROUND_TRUTH_PARAMS : List (String × ℚ) :=
  [("friction", 7 / 10), ("elasticity", 9 / 10), ("mass", 12)]

/-- Stage A bounce scenario: a single vertical impulse at step 0. -/
def EXP_A_IMPULSES : List (Nat × ℚ × ℚ) := [(0, (0, 8000))]

/-- Stage A horizon. -/
def EXP_A_STEPS : Nat := 300

/-- Stage B slide scenario: a single horizontal impulse at step 0. -/
def EXP_B_IMPULSES : List (Nat × ℚ × ℚ) := [(0, (30000, 0))]

/-- Stage B horizon. -/
def EXP_B_STEPS : Nat := 300

/-- Stage C combined scenario: a diagonal impulse at step 0 and a later
horizontal impulse at step 300. -/
def EXP_C_IMPULSES : List (Nat × ℚ × ℚ) := [(0, (8000, 8000)), (300, (25000, 0))]

/-- Stage C horizon. -/
def EXP_C_STEPS : Nat := 500

/-- one `gp_minimize` invocation as the controller makes it: the data
captured by the objective closure (free-parameter names, fixed params,
ground-truth trajectory, scenario) plus the search dimensions
(name, lower bound, upper bound) and budget options. -/
structure MinimizeCall where
  search_space_names : List String
  dimensions : List (String × ℚ × ℚ)
  fixed_params : List (String × ℚ)
  ground_truth_traj : List (ℚ × ℚ)
  steps : Nat
  impulses : List (Nat × ℚ × ℚ)
  n_calls : Nat
  n_initial_points : Nat
  random_state : Nat
  x0 : Option (List ℚ)
deriving DecidableEq

/-- `main.py`'s `run_staged_calibration`, with the external optimizer
abstracted as `minimize : MinimizeCall → List ℚ` (the returned best point
`result.x`; `List.getD i 0` models the indexing `result.x[i]`) and the
physics advance abstracted as `stepFn`.  Returns the final calibrated
parameters together with the three optimizer calls in execution order.
The global stage label and call counter mutated here feed only the
diagnostic log lines; their effect on one evaluation is modelled in
`objective_function`.  Plotting and printing are pure output and omitted. -/
def run_staged_calibration (stepFn : SimConfig → SimState → SimState)
    (minimize : MinimizeCall → List ℚ) : Params × MinimizeCall × MinimizeCall × MinimizeCall :=
  let initial_guess : Params := { friction := 1 / 2, elasticity := 1 / 2, mass := 15 }
  let best0 := initial_guess
  let traj_a := Simulator.run_simulation_for_trajectory stepFn
    (Simulator.init GROUND_TRUTH_PARAMS) EXP_A_STEPS EXP_A_IMPULSES
  let call_a : MinimizeCall :=
    { search_space_names := ["elasticity", "mass"]
      dimensions := [("elasticity", 1 / 10, 1), ("mass", 5, 25)]
      fixed_params := [("friction", best0.friction)]
      ground_truth_traj := traj_a
      steps := EXP_A_STEPS, impulses := EXP_A_IMPULSES
      n_calls := 50, n_initial_points := 25, random_state := 42, x0 := none }
  let xa := minimize call_a
  let best1 : Params := { best0 with elasticity := xa.getD 0 0, mass := xa.getD 1 0 }
  let traj_b := Simulator.run_simulation_for_trajectory stepFn
    (Simulator.init GROUND_TRUTH_PARAMS) EXP_B_STEPS EXP_B_IMPULSES
  let call_b : MinimizeCall :=
    { search_space_names := ["friction"]
      dimensions := [("friction", 1 / 10, 1)]
      fixed_params := [("elasticity", best1.elasticity), ("mass", best1.mass)]
      ground_truth_traj := traj_b
      steps := EXP_B_STEPS, impulses := EXP_B_IMPULSES
      n_calls := 30, n_initial_points := 15, random_state := 42, x0 := none }
  let xb := minimize call_b
  let best2 : Params := { best1 with friction := xb.getD 0 0 }
  let traj_c := Simulator.run_simulation_for_trajectory stepFn
    (Simulator.init GROUND_TRUTH_PARAMS) EXP_C_STEPS EXP_C_IMPULSES
  let call_c : MinimizeCall :=
    { search_space_names := ["friction", "elasticity", "mass"]
      dimensions := [("friction", 1 / 10, 1), ("elasticity", 1 / 10, 1), ("mass", 5, 25)]
      fixed_params := []
      ground_truth_traj := traj_c
      steps := EXP_C_STEPS, impulses := EXP_C_IMPULSES
      n_calls := 70, n_initial_points := 35, random_state := 42, x0 := some best2.valuesList }
  let xc := minimize call_c
  let final_params : Params :=
    { friction := xc.getD 0 0, elasticity := xc.getD 1 0, mass := xc.getD 2 0 }
  (final_params, call_a, call_b, call_c)

theorem padTo_eq_self (n : Nat) (t : List (ℚ × ℚ)) (h : n ≤ t.length) : padTo n t = t := by
  simp [padTo, Nat.sub_eq_zero_of_le h]

theorem padTo_length (n : Nat) (t : List (ℚ × ℚ)) (h : t.length ≤ n) :
    (padTo n t).length = n := by
  simp only [padTo, List.length_append, List.length_replicate]
  omega

theorem sqDist_nonneg (p q : ℚ × ℚ) : 0 ≤ sqDist p q := by
  unfold sqDist
  positivity

theorem sqDist_eq_zero_iff (p q : ℚ × ℚ) : sqDist p q = 0 ↔ p = q := by
  unfold sqDist
  constructor
  · intro h
    have h1 : (p.1 - q.1) ^ 2 = 0 := by nlinarith [sq_nonneg (p.1 - q.1), sq_nonneg (p.2 - q.2)]
    have h2 : (p.2 - q.2) ^ 2 = 0 := by nlinarith [sq_nonneg (p.1 - q.1), sq_nonneg (p.2 - q.2)]
    have e1 : p.1 = q.1 := by
      have := pow_eq_zero_iff (n := 2) (by norm_num) |>.mp h1
      linarith
    have e2 : p.2 = q.2 := by
      have := pow_eq_zero_iff (n := 2) (by norm_num) |>.mp h2
      linarith
    exact Prod.ext e1 e2
  · intro h
    rw [h]
    ring

theorem sqDiffSum_self (t : List (ℚ × ℚ)) : sqDiffSum t t = 0 := by
  induction t with
  | nil => rfl
  | cons p ps ih =>
    simp only [sqDiffSum, ih, add_zero]
    unfold sqDist
    ring

theorem sqDiffSum_comm (t1 t2 : List (ℚ × ℚ)) : sqDiffSum t1 t2 = sqDiffSum t2 t1 := by
  induction t1 generalizing t2 with
  | nil => cases t2 <;> rfl
  | cons p ps ih =>
    cases t2 with
    | nil => rfl
    | cons q qs =>
      simp only [sqDiffSum, ih qs]
      unfold sqDist
      ring

theorem sqDiffSum_nonneg (t1 t2 : List (ℚ × ℚ)) : 0 ≤ sqDiffSum t1 t2 := by
  induction t1 generalizing t2 with
  | nil => cases t2 <;> exact le_rfl
  | cons p ps ih =>
    cases t2 with
    | nil => exact le_rfl
    | cons q qs => exact add_nonneg (sqDist_nonneg p q) (ih qs)

theorem sqDiffSum_eq_zero_iff :
    ∀ t1 t2 : List (ℚ × ℚ), t1.length = t2.length → (sqDiffSum t1 t2 = 0 ↔ t1 = t2) := by
  intro t1
  induction t1 with
  | nil =>
    intro t2 h
    cases t2 with
    | nil => simp [sqDiffSum]
    | cons q qs => simp at h
  | cons p ps ih =>
    intro t2 h
    cases t2 with
    | nil => simp at h
    | cons q qs =>
      simp only [List.length_cons, Nat.add_right_cancel_iff] at h
      constructor
      · intro hz
        have hd : sqDist p q = 0 := by
          have hs := sqDiffSum_nonneg ps qs
          have hp := sqDist_nonneg p q
          have : sqDist p q + sqDiffSum ps qs = 0 := hz
          linarith
        have ht : sqDiffSum ps qs = 0 := by
          have : sqDist p q + sqDiffSum ps qs = 0 := hz
          linarith [sqDist_nonneg p q, sqDiffSum_nonneg ps qs]
        have e1 := (sqDist_eq_zero_iff p q).mp hd
        have e2 := (ih qs h).mp ht
        rw [e1, e2]
      · intro he
        injection he with h1 h2
        subst h1
        subst h2
        simp only [sqDiffSum]
        rw [sqDiffSum_self]
        have : sqDist p p = 0 := (sqDist_eq_zero_iff p p).mpr rfl
        rw [this]
        ring

theorem getD_take (l : List (ℚ × ℚ)) :
    ∀ k i : Nat, ∀ d : ℚ × ℚ, i < k → (l.take k).getD i d = l.getD i d := by
  induction l with
  | nil => intro k i d _; simp
  | cons x xs ih =>
    intro k i d h
    cases k with
    | zero => omega
    | succ k =>
      cases i with
      | zero => simp
      | succ i =>
        simp only [List.take_succ_cons, List.getD_cons_succ]
        exact ih k i d (by omega)

theorem lastPt_take (a : List (ℚ × ℚ)) (k : Nat) (h0 : 0 < k) (hk : k ≤ a.length) :
    lastPt (a.take k) = a.getD (k - 1) (0, 0) := by
  unfold lastPt
  rw [List.length_take, Nat.min_eq_left hk]
  exact getD_take a k (k - 1) (0, 0) (by omega)

/-- Claim C1: for trajectories of unequal lengths, `_calculate_rmse` pads
the shorter trajectory by repeating its last point until the lengths
match and computes the RMSE of the padded pair (no truncation, no error);
and for every non-empty `a` and `0 < k < len(a)`, `rmse(a, a[:k])` equals
`rmse(a, a_padded)` where `a_padded` repeats `a[k-1]` for the remaining
`len(a) - k` entries.  Stated on the squared scores and on the returned
`Real.sqrt` values. -/
theorem rmse_trailing_hold_padding (a b : List (ℚ × ℚ)) (ha : a ≠ []) (hb : b ≠ [])
    (hab : a.length ≠ b.length) :
    (a.length < b.length →
      calculate_rmse_padded_sq a b
        = calculate_rmse_sq (a ++ List.replicate (b.length - a.length) (lastPt a)) b ∧
      Real.sqrt ((calculate_rmse_padded_sq a b : ℚ) : ℝ)
        = Real.sqrt ((calculate_rmse_sq (a ++ List.replicate (b.length - a.length) (lastPt a)) b : ℚ) : ℝ)) ∧
    (b.length < a.length →
      calculate_rmse_padded_sq a b
        = calculate_rmse_sq a (b ++ List.replicate (a.length - b.length) (lastPt b)) ∧
      Real.sqrt ((calculate_rmse_padded_sq a b : ℚ) : ℝ)
        = Real.sqrt ((calculate_rmse_sq a (b ++ List.replicate (a.length - b.length) (lastPt b)) : ℚ) : ℝ)) ∧
    (∀ k : Nat, 0 < k → k < a.length →
      calculate_rmse_padded_sq a (a.take k)
        = calculate_rmse_padded_sq a
            (a.take k ++ List.replicate (a.length - k) (a.getD (k - 1) (0, 0))) ∧
      Real.sqrt ((calculate_rmse_padded_sq a (a.take k) : ℚ) : ℝ)
        = Real.sqrt ((calculate_rmse_padded_sq a
            (a.take k ++ List.replicate (a.length - k) (a.getD (k - 1) (0, 0))) : ℚ) : ℝ)) := by
  refine ⟨?_, ?_, ?_⟩
  · intro h
    have hn : max a.length b.length = b.length := max_eq_right h.le
    have hlen : (a ++ List.replicate (b.length - a.length) (lastPt a)).length = b.length := by
      simp only [List.length_append, List.length_replicate]
      omega
    have key : calculate_rmse_padded_sq a b
        = calculate_rmse_sq (a ++ List.replicate (b.length - a.length) (lastPt a)) b := by
      simp only [calculate_rmse_padded_sq, calculate_rmse_sq]
      rw [hn, padTo_eq_self b.length b le_rfl, hlen]
      rfl
    exact ⟨key, by rw [key]⟩
  · intro h
    have hn : max a.length b.length = a.length := max_eq_left h.le
    have key : calculate_rmse_padded_sq a b
        = calculate_rmse_sq a (b ++ List.replicate (a.length - b.length) (lastPt b)) := by
      simp only [calculate_rmse_padded_sq, calculate_rmse_sq]
      rw [hn, padTo_eq_self a.length a le_rfl]
      rfl
    exact ⟨key, by rw [key]⟩
  · intro k hk0 hk
    have hXlen : (a.take k).length = k := by
      rw [List.length_take]
      omega
    have hlast : lastPt (a.take k) = a.getD (k - 1) (0, 0) := lastPt_take a k hk0 hk.le
    have hYlen : (a.take k ++ List.replicate (a.length - k) (a.getD (k - 1) (0, 0))).length
        = a.length := by
      simp only [List.length_append, List.length_replicate, List.length_take]
      omega
    have key : calculate_rmse_padded_sq a (a.take k)
        = calculate_rmse_padded_sq a
            (a.take k ++ List.replicate (a.length - k) (a.getD (k - 1) (0, 0))) := by
      simp only [calculate_rmse_padded_sq]
      rw [hXlen, hYlen, max_eq_left hk.le, max_self,
        padTo_eq_self a.length a le_rfl,
        padTo_eq_self a.length _ (le_of_eq hYlen.symm)]
      unfold padTo
      rw [hXlen, hlast]
    exact ⟨key, by rw [key]⟩

/-- Witness for C1 at `a = [(0,0), (1,0), (2,0)]`, `b = [(5,5)]`, `k = 2`. -/
theorem rmse_trailing_hold_padding_witness :
    (([((0:ℚ), (0:ℚ)), (1, 0), (2, 0)] : List (ℚ × ℚ)) ≠ [] ∧
      ([((5:ℚ), (5:ℚ))] : List (ℚ × ℚ)) ≠ [] ∧
      ([((0:ℚ), (0:ℚ)), (1, 0), (2, 0)] : List (ℚ × ℚ)).length
        ≠ ([((5:ℚ), (5:ℚ))] : List (ℚ × ℚ)).length) ∧
    calculate_rmse_padded_sq [((0:ℚ), (0:ℚ)), (1, 0), (2, 0)] [((5:ℚ), (5:ℚ))]
      = calculate_rmse_sq [((0:ℚ), (0:ℚ)), (1, 0), (2, 0)]
          ([((5:ℚ), (5:ℚ))] ++ List.replicate 2 (lastPt [((5:ℚ), (5:ℚ))])) ∧
    calculate_rmse_padded_sq [((0:ℚ), (0:ℚ)), (1, 0), (2, 0)]
        (([((0:ℚ), (0:ℚ)), (1, 0), (2, 0)] : List (ℚ × ℚ)).take 2)
      = calculate_rmse_padded_sq [((0:ℚ), (0:ℚ)), (1, 0), (2, 0)]
          (([((0:ℚ), (0:ℚ)), (1, 0), (2, 0)] : List (ℚ × ℚ)).take 2
            ++ List.replicate 1
                (([((0:ℚ), (0:ℚ)), (1, 0), (2, 0)] : List (ℚ × ℚ)).getD 1 (0, 0))) := by
  refine ⟨⟨by decide, by decide, by decide⟩, ?_, ?_⟩
  · exact ((rmse_trailing_hold_padding [((0:ℚ), (0:ℚ)), (1, 0), (2, 0)] [((5:ℚ), (5:ℚ))]
      (by decide) (by decide) (by decide)).2.1 (by decide)).1
  · exact ((rmse_trailing_hold_padding [((0:ℚ), (0:ℚ)), (1, 0), (2, 0)] [((5:ℚ), (5:ℚ))]
      (by decide) (by decide) (by decide)).2.2 2 (by decide) (by decide)).1

/-- Counterexample to Claim C7's final clause: with the trailing-hold
padding of `_calculate_rmse`, the score of `[(0,0), (0,0)]` against
`[(0,0)]` is zero although the two trajectories are not identical (the
shorter is padded to the longer, and then they coincide). -/
theorem rmse_zero_on_distinct_trajectories :
    calculate_rmse_padded_sq [((0:ℚ), (0:ℚ)), (0, 0)] [((0:ℚ), (0:ℚ))] = 0 ∧
    Real.sqrt ((calculate_rmse_padded_sq [((0:ℚ), (0:ℚ)), (0, 0)] [((0:ℚ), (0:ℚ))] : ℚ) : ℝ) = 0 ∧
    ([((0:ℚ), (0:ℚ)), (0, 0)] : List (ℚ × ℚ)) ≠ [((0:ℚ), (0:ℚ))] := by
  have h : calculate_rmse_padded_sq [((0:ℚ), (0:ℚ)), (0, 0)] [((0:ℚ), (0:ℚ))] = 0 := by
    norm_num [calculate_rmse_padded_sq, padTo, lastPt, sqDiffSum, sqDist]
  refine ⟨h, ?_, by decide⟩
  rw [h]
  simp

/-- Claim C7 as amended: the comparator is metric-like — `rmse(a,a) = 0`,
`rmse(a,b) = rmse(b,a)`, `rmse(a,b) ≥ 0` for non-empty trajectories —
and `rmse(a,b) = 0` iff `a = b` holds on equal-length pairs; with
trailing-hold padding it fails for unequal lengths (see the
counterexample), so the zero-iff-identical clause is restricted to
equal-length trajectories. -/
theorem rmse_metric_like (a b : List (ℚ × ℚ)) (ha : a ≠ []) (hb : b ≠ []) :
    calculate_rmse_padded_sq a a = 0 ∧
    Real.sqrt ((calculate_rmse_padded_sq a a : ℚ) : ℝ) = 0 ∧
    calculate_rmse_padded_sq a b = calculate_rmse_padded_sq b a ∧
    0 ≤ calculate_rmse_padded_sq a b ∧
    0 ≤ Real.sqrt ((calculate_rmse_padded_sq a b : ℚ) : ℝ) ∧
    (a.length = b.length → (calculate_rmse_padded_sq a b = 0 ↔ a = b)) ∧
    (a.length = b.length →
      (Real.sqrt ((calculate_rmse_padded_sq a b : ℚ) : ℝ) = 0 ↔ a = b)) := by
  have hrefl : calculate_rmse_padded_sq a a = 0 := by
    simp only [calculate_rmse_padded_sq]
    rw [max_self, padTo_eq_self a.length a le_rfl, sqDiffSum_self]
    simp
  have hsymm : calculate_rmse_padded_sq a b = calculate_rmse_padded_sq b a := by
    simp only [calculate_rmse_padded_sq]
    rw [max_comm b.length a.length, sqDiffSum_comm]
  have hnonneg : 0 ≤ calculate_rmse_padded_sq a b := by
    simp only [calculate_rmse_padded_sq]
    apply div_nonneg (sqDiffSum_nonneg _ _)
    positivity
  have hiff : a.length = b.length → (calculate_rmse_padded_sq a b = 0 ↔ a = b) := by
    intro h
    have halen : 0 < a.length := List.length_pos.mpr ha
    have heq : calculate_rmse_padded_sq a b = sqDiffSum a b / (2 * (a.length : ℚ)) := by
      simp only [calculate_rmse_padded_sq]
      rw [← h, max_self, padTo_eq_self a.length a le_rfl, padTo_eq_self a.length b (le_of_eq h)]
    rw [heq, div_eq_zero_iff]
    constructor
    · intro hc
      rcases hc with hc | hc
      · exact (sqDiffSum_eq_zero_iff a b h).mp hc
      · exfalso
        have : ((a.length : ℚ)) ≠ 0 := by
          exact_mod_cast Nat.pos_iff_ne_zero.mp halen
        have h2 : (2 : ℚ) * (a.length : ℚ) ≠ 0 := by
          exact mul_ne_zero two_ne_zero this
        exact h2 hc
    · intro hc
      exact Or.inl ((sqDiffSum_eq_zero_iff a b h).mpr hc)
  refine ⟨hrefl, by rw [hrefl]; simp, hsymm, hnonneg, Real.sqrt_nonneg _, hiff, ?_⟩
  intro h
  rw [← hiff h]
  constructor
  · intro hs
    have hle : ((calculate_rmse_padded_sq a b : ℚ) : ℝ) ≤ 0 := Real.sqrt_eq_zero'.mp hs
    have hge : (0 : ℝ) ≤ ((calculate_rmse_padded_sq a b : ℚ) : ℝ) := by exact_mod_cast hnonneg
    have : ((calculate_rmse_padded_sq a b : ℚ) : ℝ) = 0 := le_antisymm hle hge
    exact_mod_cast this
  · intro hz
    rw [hz]
    simp

/-- Witness for C7's amended theorem at `a = [(1,2)]`, `b = [(3,4)]`. -/
theorem rmse_metric_like_witness :
    (([((1:ℚ), (2:ℚ))] : List (ℚ × ℚ)) ≠ [] ∧ ([((3:ℚ), (4:ℚ))] : List (ℚ × ℚ)) ≠ []) ∧
    calculate_rmse_padded_sq [((1:ℚ), (2:ℚ))] [((1:ℚ), (2:ℚ))] = 0 ∧
    calculate_rmse_padded_sq [((1:ℚ), (2:ℚ))] [((3:ℚ), (4:ℚ))]
      = calculate_rmse_padded_sq [((3:ℚ), (4:ℚ))] [((1:ℚ), (2:ℚ))] ∧
    (calculate_rmse_padded_sq [((1:ℚ), (2:ℚ))] [((3:ℚ), (4:ℚ))] = 0 ↔
      ([((1:ℚ), (2:ℚ))] : List (ℚ × ℚ)) = [((3:ℚ), (4:ℚ))]) := by
  refine ⟨⟨by decide, by decide⟩, ?_, ?_, ?_⟩
  · exact (rmse_metric_like [((1:ℚ), (2:ℚ))] [((3:ℚ), (4:ℚ))] (by decide) (by decide)).1
  · exact (rmse_metric_like [((1:ℚ), (2:ℚ))] [((3:ℚ), (4:ℚ))] (by decide) (by decide)).2.2.1
  · exact (rmse_metric_like [((1:ℚ), (2:ℚ))] [((3:ℚ), (4:ℚ))]
      (by decide) (by decide)).2.2.2.2.2.1 (by decide)

/-- Claim C10: on equal-length trajectory pairs the two comparator
implementations agree — `main.py`'s `calculate_rmse` (no padding) and
`src/optimizer.py`'s `_calculate_rmse` (trailing-hold padding) return the
same value, so the padding variant refines the no-padding variant on the
domain where both are defined. -/
theorem rmse_variants_agree (a b : List (ℚ × ℚ)) (ha : a ≠ []) (h : a.length = b.length) :
    calculate_rmse_padded_sq a b = calculate_rmse_sq a b ∧
    Real.sqrt ((calculate_rmse_padded_sq a b : ℚ) : ℝ)
      = Real.sqrt ((calculate_rmse_sq a b : ℚ) : ℝ) := by
  have key : calculate_rmse_padded_sq a b = calculate_rmse_sq a b := by
    simp only [calculate_rmse_padded_sq, calculate_rmse_sq]
    rw [← h, max_self, padTo_eq_self a.length a le_rfl, padTo_eq_self a.length b (le_of_eq h)]
  exact ⟨key, by rw [key]⟩

/-- Witness for C10 at `a = [(0,0), (3,4)]`, `b = [(1,1), (3,5)]`. -/
theorem rmse_variants_agree_witness :
    (([((0:ℚ), (0:ℚ)), (3, 4)] : List (ℚ × ℚ)) ≠ [] ∧
      ([((0:ℚ), (0:ℚ)), (3, 4)] : List (ℚ × ℚ)).length
        = ([((1:ℚ), (1:ℚ)), (3, 5)] : List (ℚ × ℚ)).length) ∧
    calculate_rmse_padded_sq [((0:ℚ), (0:ℚ)), (3, 4)] [((1:ℚ), (1:ℚ)), (3, 5)]
      = calculate_rmse_sq [((0:ℚ), (0:ℚ)), (3, 4)] [((1:ℚ), (1:ℚ)), (3, 5)] := by
  refine ⟨⟨by decide, by decide⟩, ?_⟩
  exact (rmse_variants_agree [((0:ℚ), (0:ℚ)), (3, 4)] [((1:ℚ), (1:ℚ)), (3, 5)]
    (by decide) (by decide)).1

theorem runFrom_length (stepFn : SimConfig → SimState → SimState) (cfg : SimConfig)
    (impulses : List (Nat × ℚ × ℚ)) :
    ∀ (n k : Nat) (st : SimState), (runFrom stepFn cfg impulses n k st).length = n := by
  intro n
  induction n with
  | zero => intro k st; rfl
  | succ n ih =>
    intro k st
    simp only [runFrom, List.length_cons, ih]

theorem runFrom_getD (stepFn : SimConfig → SimState → SimState) (cfg : SimConfig)
    (impulses : List (Nat × ℚ × ℚ)) :
    ∀ (j n k : Nat) (st : SimState) (d : ℚ × ℚ), j < n →
      (runFrom stepFn cfg impulses n k st).getD j d
        = (stateFrom stepFn cfg impulses (j + 1) k st).pos := by
  intro j
  induction j with
  | zero =>
    intro n k st d h
    cases n with
    | zero => omega
    | succ n => rfl
  | succ j ih =>
    intro n k st d h
    cases n with
    | zero => omega
    | succ n =>
      simp only [runFrom, List.getD_cons_succ]
      rw [ih n (k + 1) _ d (by omega)]
      rfl

theorem stateFrom_succ_last (stepFn : SimConfig → SimState → SimState) (cfg : SimConfig)
    (impulses : List (Nat × ℚ × ℚ)) :
    ∀ (j k : Nat) (st : SimState),
      stateFrom stepFn cfg impulses (j + 1) k st
        = stepOnce stepFn cfg impulses (k + j) (stateFrom stepFn cfg impulses j k st) := by
  intro j
  induction j with
  | zero => intro k st; rfl
  | succ j ih =>
    intro k st
    show stateFrom stepFn cfg impulses (j + 1) (k + 1) (stepOnce stepFn cfg impulses k st) = _
    rw [ih (k + 1) (stepOnce stepFn cfg impulses k st)]
    have harith : k + 1 + j = k + (j + 1) := by omega
    rw [harith]
    rfl

theorem applyScheduled_eq_applyAll (m : ℚ) :
    ∀ (l : List (Nat × ℚ × ℚ)) (k : Nat) (st : SimState),
      applyScheduled m l k st = applyAll m (impulsesAt l k) st := by
  intro l
  induction l with
  | nil => intro k st; rfl
  | cons ti rest ih =>
    intro k st
    by_cases h : k = ti.1
    · have hl : applyScheduled m (ti :: rest) k st
          = applyScheduled m rest k (applyImpulse m ti.2 st) := by
        simp [applyScheduled, h]
      have hr : impulsesAt (ti :: rest) k = ti.2 :: impulsesAt rest k := by
        simp [impulsesAt, List.filter_cons, h]
      rw [hl, hr, ih]
      rfl
    · have hl : applyScheduled m (ti :: rest) k st = applyScheduled m rest k st := by
        simp [applyScheduled, h]
      have hr : impulsesAt (ti :: rest) k = impulsesAt rest k := by
        simp [impulsesAt, List.filter_cons, h]
      rw [hl, hr, ih]

theorem applyAll_eq_addVel (m : ℚ) :
    ∀ (js : List (ℚ × ℚ)) (st : SimState),
      applyAll m js st
        = { st with vel := (st.vel.1 + (js.map Prod.fst).sum / m,
                            st.vel.2 + (js.map Prod.snd).sum / m) } := by
  intro js
  induction js with
  | nil => intro st; simp [applyAll]
  | cons j js ih =>
    intro st
    have h1 : applyAll m (j :: js) st = applyAll m js (applyImpulse m j st) := rfl
    rw [h1, ih]
    simp only [applyImpulse, List.map_cons, List.sum_cons, SimState.mk.injEq, Prod.mk.injEq,
      true_and]
    constructor <;> ring

theorem applyAll_pos (m : ℚ) (js : List (ℚ × ℚ)) (st : SimState) :
    (applyAll m js st).pos = st.pos := by
  rw [applyAll_eq_addVel]

theorem applyScheduled_perm (m : ℚ) (l1 l2 : List (Nat × ℚ × ℚ)) (hp : l1.Perm l2)
    (k : Nat) (st : SimState) :
    applyScheduled m l1 k st = applyScheduled m l2 k st := by
  rw [applyScheduled_eq_applyAll, applyScheduled_eq_applyAll,
    applyAll_eq_addVel, applyAll_eq_addVel]
  have hperm : (impulsesAt l1 k).Perm (impulsesAt l2 k) := by
    unfold impulsesAt
    exact (hp.filter _).map _
  have h1 : ((impulsesAt l1 k).map Prod.fst).sum = ((impulsesAt l2 k).map Prod.fst).sum :=
    (hperm.map Prod.fst).sum_eq
  have h2 : ((impulsesAt l1 k).map Prod.snd).sum = ((impulsesAt l2 k).map Prod.snd).sum :=
    (hperm.map Prod.snd).sum_eq
  rw [h1, h2]

theorem runFrom_perm (stepFn : SimConfig → SimState → SimState) (cfg : SimConfig)
    (l1 l2 : List (Nat × ℚ × ℚ)) (hp : l1.Perm l2) :
    ∀ (n k : Nat) (st : SimState),
      runFrom stepFn cfg l1 n k st = runFrom stepFn cfg l2 n k st := by
  intro n
  induction n with
  | zero => intro k st; rfl
  | succ n ih =>
    intro k st
    have hs : stepOnce stepFn cfg l1 k st = stepOnce stepFn cfg l2 k st := by
      unfold stepOnce
      rw [applyScheduled_perm cfg.mass l1 l2 hp k st]
    simp only [runFrom]
    rw [hs, ih]

theorem applyScheduled_no_match (m : ℚ) :
    ∀ (l : List (Nat × ℚ × ℚ)) (k : Nat) (st : SimState),
      (∀ ti ∈ l, k ≠ ti.1) → applyScheduled m l k st = st := by
  intro l
  induction l with
  | nil => intro k st _; rfl
  | cons ti rest ih =>
    intro k st h
    have hl : applyScheduled m (ti :: rest) k st = applyScheduled m rest k st := by
      simp [applyScheduled, h ti (List.mem_cons_self ti rest)]
    rw [hl]
    exact ih k st (fun x hx => h x (List.mem_cons_of_mem ti hx))

theorem runFrom_out_of_window (stepFn : SimConfig → SimState → SimState) (cfg : SimConfig) :
    ∀ (n k : Nat) (l : List (Nat × ℚ × ℚ)) (st : SimState),
      (∀ ti ∈ l, ti.1 < k ∨ k + n ≤ ti.1) →
      runFrom stepFn cfg l n k st = runFrom stepFn cfg [] n k st := by
  intro n
  induction n with
  | zero => intro k l st _; rfl
  | succ n ih =>
    intro k l st h
    have hap : applyScheduled cfg.mass l k st = st := by
      apply applyScheduled_no_match
      intro ti hti
      rcases h ti hti with hlt | hge <;> omega
    have hs : stepOnce stepFn cfg l k st = stepOnce stepFn cfg [] k st := by
      unfold stepOnce
      rw [hap]
      rfl
    simp only [runFrom]
    rw [hs, ih (k + 1) l _ (fun ti hti => by rcases h ti hti with hlt | hge <;> omega)]

/-- Claim C5: in `run_simulation_for_trajectory`, the state entering each
step's advance is the previous state with exactly the impulses scheduled
for that step index applied, each once, as instantaneous center impulses
(position untouched, velocity changed by impulse/mass); impulses sharing
a step index all apply; the trajectory is invariant under any permutation
of the schedule (in particular under reordering entries with distinct
step indices); and impulses whose step index falls outside
`0 ≤ s < steps` are never applied. -/
theorem impulse_application_correct (stepFn : SimConfig → SimState → SimState)
    (cfg : SimConfig) (impulses : List (Nat × ℚ × ℚ)) (st : SimState) :
    (∀ k : Nat,
      stateFrom stepFn cfg impulses (k + 1) 0 st
        = stepFn cfg (applyAll cfg.mass (impulsesAt impulses k)
            (stateFrom stepFn cfg impulses k 0 st))) ∧
    (∀ js : List (ℚ × ℚ), ∀ s : SimState, (applyAll cfg.mass js s).pos = s.pos) ∧
    (∀ j : ℚ × ℚ, ∀ s : SimState,
      applyImpulse cfg.mass j s
        = { s with vel := (s.vel.1 + j.1 / cfg.mass, s.vel.2 + j.2 / cfg.mass) }) ∧
    (∀ l2 : List (Nat × ℚ × ℚ), ∀ steps : Nat, impulses.Perm l2 →
      runFrom stepFn cfg impulses steps 0 st = runFrom stepFn cfg l2 steps 0 st) ∧
    (∀ steps : Nat, (∀ ti ∈ impulses, steps ≤ ti.1) →
      runFrom stepFn cfg impulses steps 0 st = runFrom stepFn cfg [] steps 0 st) := by
  refine ⟨?_, ?_, ?_, ?_, ?_⟩
  · intro k
    rw [stateFrom_succ_last stepFn cfg impulses k 0 st]
    show stepFn cfg (applyScheduled cfg.mass impulses (0 + k) _) = _
    rw [applyScheduled_eq_applyAll cfg.mass impulses (0 + k)]
    rw [Nat.zero_add]
  · intro js s
    exact applyAll_pos cfg.mass js s
  · intro j s
    rfl
  · intro l2 steps hp
    exact runFrom_perm stepFn cfg impulses l2 hp steps 0 st
  · intro steps h
    apply runFrom_out_of_window
    intro ti hti
    right
    have := h ti hti
    omega

/-- Witness for C5: identity advance, two impulses at steps 0 and 1,
permuted schedule, and an impulse scheduled past the horizon. -/
theorem impulse_application_correct_witness :
    (([((0:Nat), ((1:ℚ), (2:ℚ))), (1, (3, 4))] : List (Nat × ℚ × ℚ)).Perm
        [((1:Nat), ((3:ℚ), (4:ℚ))), (0, (1, 2))] ∧
      (∀ ti ∈ ([((5:Nat), ((1:ℚ), (1:ℚ)))] : List (Nat × ℚ × ℚ)), 2 ≤ ti.1)) ∧
    runFrom (fun _ s => s) { mass := 10, elasticity := 19 / 20, friction := 7 / 10 }
        [((0:Nat), ((1:ℚ), (2:ℚ))), (1, (3, 4))] 2 0
        { pos := (0, 300), vel := (0, 0) }
      = runFrom (fun _ s => s) { mass := 10, elasticity := 19 / 20, friction := 7 / 10 }
          [((1:Nat), ((3:ℚ), (4:ℚ))), (0, (1, 2))] 2 0
          { pos := (0, 300), vel := (0, 0) } ∧
    runFrom (fun _ s => s) { mass := 10, elasticity := 19 / 20, friction := 7 / 10 }
        [((5:Nat), ((1:ℚ), (1:ℚ)))] 2 0 { pos := (0, 300), vel := (0, 0) }
      = runFrom (fun _ s => s) { mass := 10, elasticity := 19 / 20, friction := 7 / 10 }
          [] 2 0 { pos := (0, 300), vel := (0, 0) } := by
  refine ⟨⟨?_, ?_⟩, ?_, ?_⟩
  · exact List.Perm.swap _ _ _
  · intro ti hti
    simp only [List.mem_singleton] at hti
    subst hti
    norm_num
  · exact (impulse_application_correct (fun _ s => s)
      { mass := 10, elasticity := 19 / 20, friction := 7 / 10 }
      [((0:Nat), ((1:ℚ), (2:ℚ))), (1, (3, 4))]
      { pos := (0, 300), vel := (0, 0) }).2.2.2.1
      [((1:Nat), ((3:ℚ), (4:ℚ))), (0, (1, 2))] 2 (List.Perm.swap _ _ _)
  · exact (impulse_application_correct (fun _ s => s)
      { mass := 10, elasticity := 19 / 20, friction := 7 / 10 }
      [((5:Nat), ((1:ℚ), (1:ℚ)))] { pos := (0, 300), vel := (0, 0) }).2.2.2.2
      2 (by intro ti hti; simp only [List.mem_singleton] at hti; subst hti; norm_num)

/-- Claim C6: the returned trajectory has exactly `steps` entries, and
entry `k` is the body's position after the advance of step `k` (that is,
after `k + 1` iterations), in step order; in particular entry `0` already
reflects the first advance, so nothing is recorded before it. -/
theorem trajectory_records_after_each_advance
    (stepFn : SimConfig → SimState → SimState) (sim : Simulator)
    (steps : Nat) (impulses : List (Nat × ℚ × ℚ)) :
    (Simulator.run_simulation_for_trajectory stepFn sim steps impulses).length = steps ∧
    (∀ k : Nat, ∀ d : ℚ × ℚ, k < steps →
      (Simulator.run_simulation_for_trajectory stepFn sim steps impulses).getD k d
        = (stateFrom stepFn sim.cfg impulses (k + 1) 0 sim.body).pos) := by
  constructor
  · exact runFrom_length stepFn sim.cfg impulses steps 0 sim.body
  · intro k d h
    exact runFrom_getD stepFn sim.cfg impulses k steps 0 sim.body d h

/-- Witness for C6 at two steps, identity advance, one impulse. -/
theorem trajectory_records_after_each_advance_witness :
    ((1 : Nat) < 2) ∧
    (Simulator.run_simulation_for_trajectory (fun _ s => s)
        { cfg := { mass := 10, elasticity := 19 / 20, friction := 7 / 10 },
          body := { pos := (0, 300), vel := (0, 0) } } 2
        [((0:Nat), ((1:ℚ), (2:ℚ)))]).length = 2 ∧
    (Simulator.run_simulation_for_trajectory (fun _ s => s)
        { cfg := { mass := 10, elasticity := 19 / 20, friction := 7 / 10 },
          body := { pos := (0, 300), vel := (0, 0) } } 2
        [((0:Nat), ((1:ℚ), (2:ℚ)))]).getD 1 (0, 0)
      = (stateFrom (fun _ s => s) { mass := 10, elasticity := 19 / 20, friction := 7 / 10 }
          [((0:Nat), ((1:ℚ), (2:ℚ)))] 2 0 { pos := (0, 300), vel := (0, 0) }).pos := by
  refine ⟨by omega, ?_, ?_⟩
  · exact (trajectory_records_after_each_advance (fun _ s => s)
      { cfg := { mass := 10, elasticity := 19 / 20, friction := 7 / 10 },
        body := { pos := (0, 300), vel := (0, 0) } } 2 [((0:Nat), ((1:ℚ), (2:ℚ)))]).1
  · exact (trajectory_records_after_each_advance (fun _ s => s)
      { cfg := { mass := 10, elasticity := 19 / 20, friction := 7 / 10 },
        body := { pos := (0, 300), vel := (0, 0) } } 2 [((0:Nat), ((1:ℚ), (2:ℚ)))]).2
      1 (0, 0) (by omega)

/-- Claim C3, evaluated at the failing input `mass = -5`: constructing a
simulator with a negative mass succeeds — `Simulator.__init__` performs
no validation, stores the invalid mass unchanged on the body, and a full
trajectory is still produced under the opaque advance.  The spec instead
requires construction to fail fast with an error. -/
theorem simulator_accepts_negative_mass :
    (Simulator.init [("mass", -5)]).cfg.mass = -5 ∧
    (Simulator.init [("mass", -5)]).body.pos = (0, 300) ∧
    (Simulator.run_simulation_for_trajectory (fun _ st => st)
      (Simulator.init [("mass", -5)]) 2 []).length = 2 := by
  refine ⟨rfl, rfl, ?_⟩
  exact runFrom_length (fun _ st => st) (Simulator.init [("mass", -5)]).cfg [] 2 0
    (Simulator.init [("mass", -5)]).body

/-- Claim C9: `Simulator.__init__` replaces each absent key by its
default — elasticity `0.95`, friction `0.7`, mass `10.0` — and assigns a
present key's value unchanged to the body's mass and the shape's
elasticity and friction coefficients. -/
theorem simulator_param_defaults (params : List (String × ℚ)) :
    (params.lookup "mass" = none → (Simulator.init params).cfg.mass = 10) ∧
    (∀ v : ℚ, params.lookup "mass" = some v → (Simulator.init params).cfg.mass = v) ∧
    (params.lookup "elasticity" = none →
      (Simulator.init params).cfg.elasticity = 19 / 20) ∧
    (∀ v : ℚ, params.lookup "elasticity" = some v →
      (Simulator.init params).cfg.elasticity = v) ∧
    (params.lookup "friction" = none → (Simulator.init params).cfg.friction = 7 / 10) ∧
    (∀ v : ℚ, params.lookup "friction" = some v →
      (Simulator.init params).cfg.friction = v) := by
  refine ⟨?_, ?_, ?_, ?_, ?_, ?_⟩
  · intro h
    simp [Simulator.init, h]
  · intro v h
    simp [Simulator.init, h]
  · intro h
    simp [Simulator.init, h]
  · intro v h
    simp [Simulator.init, h]
  · intro h
    simp [Simulator.init, h]
  · intro v h
    simp [Simulator.init, h]

/-- Witness for C9: one dict with only `mass` present, checking the
assigned value and one default. -/
theorem simulator_param_defaults_witness :
    ([(("mass" : String), (3 : ℚ))].lookup "mass" = some 3 ∧
      [(("mass" : String), (3 : ℚ))].lookup "elasticity" = none) ∧
    (Simulator.init [(("mass" : String), (3 : ℚ))]).cfg.mass = 3 ∧
    (Simulator.init [(("mass" : String), (3 : ℚ))]).cfg.elasticity = 19 / 20 := by
  refine ⟨⟨rfl, rfl⟩, ?_, ?_⟩
  · exact (simulator_param_defaults [(("mass" : String), (3 : ℚ))]).2.1 3 rfl
  · exact (simulator_param_defaults [(("mass" : String), (3 : ℚ))]).2.2.1 rfl

theorem assignFree_none_iff :
    ∀ (names : List String) (acc : List (String × ℚ)) (vals : List ℚ) (i : Nat),
      i ≤ vals.length →
      (assignFree acc names vals i = none ↔ vals.length < i + names.length) := by
  intro names
  induction names with
  | nil =>
    intro acc vals i h
    simp only [assignFree, List.length_nil, Nat.add_zero]
    constructor
    · intro hc
      exact absurd hc (by simp)
    · intro hc
      omega
  | cons name rest ih =>
    intro acc vals i h
    simp only [assignFree]
    cases hv : vals.get? i with
    | some v =>
      have hi : i < vals.length := by
        by_contra hc
        push_neg at hc
        rw [List.get?_eq_none.mpr hc] at hv
        exact Option.noConfusion hv
      rw [ih (dictSet acc name v) vals (i + 1) hi]
      simp only [List.length_cons]
      omega
    | none =>
      have hi : vals.length ≤ i := List.get?_eq_none.mp hv
      simp only [List.length_cons]
      constructor
      · intro _
        omega
      · intro _
        trivial

/-- Counterexample to Claim C4: with one free-parameter name and two
supplied values — a count mismatch — the evaluation does not fail; it
silently ignores the surplus value and returns a score (here `0`, as the
merged parameters reproduce the ground truth under the identity
advance). -/
theorem objective_surplus_values_returns_value :
    (objective_function (fun _ st => st) "Stage A (Bounce)" 0 [1 / 2, 9 / 10] ["friction"] []
      [((0:ℚ), (300:ℚ))] 1 []).value_sq = some 0 ∧
    (["friction"] : List String).length ≠ ([1 / 2, (9 / 10 : ℚ)] : List ℚ).length := by
  constructor
  · norm_num [objective_function, assignFree, dictSet, Simulator.init,
      Simulator.run_simulation_for_trajectory, runFrom, stepOnce, applyScheduled,
      calculate_rmse_sq, sqDiffSum, sqDist]
  · decide

/-- Claim C4 as amended: the evaluation fails fast (with the IndexError
of `params[i]`) exactly when fewer free values than free-parameter names
are supplied; when at least as many values as names are supplied the call
returns an RMSE value, silently ignoring any surplus values. -/
theorem objective_fails_iff_too_few_values (stepFn : SimConfig → SimState → SimState)
    (stage : String) (c : Nat) (params : List ℚ) (search_space_names : List String)
    (fixed_params : List (String × ℚ)) (ground_truth_traj : List (ℚ × ℚ))
    (steps : Nat) (impulses : List (Nat × ℚ × ℚ)) :
    ((objective_function stepFn stage c params search_space_names fixed_params
        ground_truth_traj steps impulses).value_sq = none
      ↔ params.length < search_space_names.length) := by
  constructor
  · intro h
    cases ha : assignFree fixed_params search_space_names params 0 with
    | none =>
      have := (assignFree_none_iff search_space_names fixed_params params 0
        (Nat.zero_le _)).mp ha
      omega
    | some cur =>
      exfalso
      simp [objective_function, ha] at h
  · intro h
    have ha : assignFree fixed_params search_space_names params 0 = none :=
      (assignFree_none_iff search_space_names fixed_params params 0
        (Nat.zero_le _)).mpr (by omega)
    simp [objective_function, ha]

/-- Claim C8: the objective evaluation is deterministic and its mutable
state is inert — the returned score depends only on the free values, the
free-parameter names, the fixed params, the ground truth, the scenario
and the (deterministic) physics advance, not on the global call counter
or stage label; so two calls with identical free values return identical
scores (and identical RMSE values after the square root), while the only
state effect is incrementing the counter by one. -/
theorem objective_function_deterministic (stepFn : SimConfig → SimState → SimState)
    (stage1 stage2 : String) (c1 c2 : Nat) (params : List ℚ)
    (search_space_names : List String) (fixed_params : List (String × ℚ))
    (ground_truth_traj : List (ℚ × ℚ)) (steps : Nat) (impulses : List (Nat × ℚ × ℚ)) :
    (objective_function stepFn stage1 c1 params search_space_names fixed_params
        ground_truth_traj steps impulses).value_sq
      = (objective_function stepFn stage2 c2 params search_space_names fixed_params
          ground_truth_traj steps impulses).value_sq ∧
    Option.map (fun q : ℚ => Real.sqrt (q : ℝ))
        ((objective_function stepFn stage1 c1 params search_space_names fixed_params
          ground_truth_traj steps impulses).value_sq)
      = Option.map (fun q : ℚ => Real.sqrt (q : ℝ))
        ((objective_function stepFn stage2 c2 params search_space_names fixed_params
          ground_truth_traj steps impulses).value_sq) ∧
    (objective_function stepFn stage1 c1 params search_space_names fixed_params
        ground_truth_traj steps impulses).call_count = c1 + 1 := by
  have key : (objective_function stepFn stage1 c1 params search_space_names fixed_params
        ground_truth_traj steps impulses).value_sq
      = (objective_function stepFn stage2 c2 params search_space_names fixed_params
          ground_truth_traj steps impulses).value_sq := by
    simp only [objective_function]
    cases ha : assignFree fixed_params search_space_names params 0 <;> rfl
  refine ⟨key, by rw [key], ?_⟩
  simp only [objective_function]
  cases ha : assignFree fixed_params search_space_names params 0 <;> rfl

/-- Claim C2: the controller runs exactly three optimizer calls in order
A, B, C; Stage A frees elasticity and mass with friction fixed to the
initial guess `0.5`; Stage B frees friction with elasticity and mass
fixed to exactly Stage A's winning values; Stage C frees all three
parameters with nothing fixed, warm-started (`x0`) from the accumulated
A+B estimate in the running dict's insertion order (friction from B,
elasticity and mass from A); and the terminal result is exactly Stage C's
best point keyed by Stage C's free-parameter names in order. -/
theorem staged_calibration_threading (stepFn : SimConfig → SimState → SimState)
    (minimize : MinimizeCall → List ℚ) :
    (run_staged_calibration stepFn minimize).2.1.search_space_names
      = ["elasticity", "mass"] ∧
    (run_staged_calibration stepFn minimize).2.1.fixed_params = [("friction", 1 / 2)] ∧
    (run_staged_calibration stepFn minimize).2.1.steps = EXP_A_STEPS ∧
    (run_staged_calibration stepFn minimize).2.1.impulses = EXP_A_IMPULSES ∧
    (run_staged_calibration stepFn minimize).2.2.1.search_space_names = ["friction"] ∧
    (run_staged_calibration stepFn minimize).2.2.1.fixed_params
      = [("elasticity", (minimize (run_staged_calibration stepFn minimize).2.1).getD 0 0),
         ("mass", (minimize (run_staged_calibration stepFn minimize).2.1).getD 1 0)] ∧
    (run_staged_calibration stepFn minimize).2.2.1.steps = EXP_B_STEPS ∧
    (run_staged_calibration stepFn minimize).2.2.1.impulses = EXP_B_IMPULSES ∧
    (run_staged_calibration stepFn minimize).2.2.2.search_space_names
      = ["friction", "elasticity", "mass"] ∧
    (run_staged_calibration stepFn minimize).2.2.2.fixed_params = [] ∧
    (run_staged_calibration stepFn minimize).2.2.2.steps = EXP_C_STEPS ∧
    (run_staged_calibration stepFn minimize).2.2.2.impulses = EXP_C_IMPULSES ∧
    (run_staged_calibration stepFn minimize).2.2.2.x0
      = some [(minimize (run_staged_calibration stepFn minimize).2.2.1).getD 0 0,
              (minimize (run_staged_calibration stepFn minimize).2.1).getD 0 0,
              (minimize (run_staged_calibration stepFn minimize).2.1).getD 1 0] ∧
    (run_staged_calibration stepFn minimize).1
      = { friction := (minimize (run_staged_calibration stepFn minimize).2.2.2).getD 0 0,
          elasticity := (minimize (run_staged_calibration stepFn minimize).2.2.2).getD 1 0,
          mass := (minimize (run_staged_calibration stepFn minimize).2.2.2).getD 2 0 } := by
  exact ⟨rfl, rfl, rfl, rfl, rfl, rfl, rfl, rfl, rfl, rfl, rfl, rfl, rfl, rfl⟩
